import Mathlib

set_option linter.unusedVariables false

/-!
Shallow embedding of the arbitrage scan/execute engine of
`src/arbitrage/engine.ts` (class `ArbitrageEngine`), together with a model of
the bounded-concurrency limiter contract.  Pure data is translated directly;
the engine's mutable instance state (`activeTrades`, logs, decision records)
is threaded explicitly through an `EngineState`, and a thrown JS exception is
modelled as the `some`-branch of an `Option JsError` paired with the state at
the moment of the throw (JS exceptions do not roll back prior mutations).
Numeric JS values are modelled as rationals; `toFixed` string formatting in
log lines is elided (log lines keep their template text and identifiers).
-/

namespace ArbEngine

/-- Best ask and best bid price for one token, the result shape of
`MarketDataProvider.getOrderBookTop` used in `engine.ts`. -/
structure OrderBookTop where
  bestAsk : Rat
  bestBid : Rat
deriving DecidableEq, Repr

/-- One binary market: an identifier plus the YES and NO token identifiers,
as supplied by `provider.getActiveMarkets()`. -/
structure Market where
  marketId : String
  yesTokenId : String
  noTokenId : String
deriving DecidableEq, Repr

/-- A market joined with its fetched YES/NO tops, the object
`{ ...market, yesTop, noTop }` built in `scanOnce`. -/
structure MarketSnapshot where
  marketId : String
  yesTokenId : String
  noTokenId : String
  yesTop : OrderBookTop
  noTop : OrderBookTop
deriving DecidableEq, Repr

/-- An opportunity produced by `strategy.findOpportunities`, with the fields
the engine reads (`engine.ts` lines 77-85, 117-148, 162-186). -/
structure Opportunity where
  marketId : String
  yesTokenId : String
  noTokenId : String
  yesAsk : Rat
  noAsk : Rat
  sizeUsd : Rat
  edgeBps : Rat
  estProfitUsd : Rat
  liquidityUsd : Rat
  spreadBps : Rat
deriving DecidableEq, Repr

/-- The execution plan object literal built in `handleOpportunity`
(`engine.ts` lines 139-148). -/
structure ExecutionPlan where
  marketId : String
  yesTokenId : String
  noTokenId : String
  yesAsk : Rat
  noAsk : Rat
  sizeUsd : Rat
  edgeBps : Rat
  estProfitUsd : Rat
deriving DecidableEq, Repr

/-- Result returned by `executor.execute`: a status string (`submitted`,
`dry_run`, or any other terminal status), an optional reason, and an optional
list of transaction hashes. -/
structure ExecutionResult where
  status : String
  reason : Option String
  txHashes : Option (List String)
deriving DecidableEq, Repr

/-- A thrown JS error.  `orderbookNotFound` models `OrderbookNotFoundError`
(the `instanceof` check in `getOrderBookTopSafe`); `other` models every other
thrown error.  Both carry the error message. -/
inductive JsError where
  | orderbookNotFound (msg : String)
  | other (msg : String)
deriving DecidableEq, Repr

/-- The `err.message` read in the `scanOnce` catch block. -/
def JsError.message : JsError → String
  | .orderbookNotFound m => m
  | .other m => m

/-- Result of `riskManager.canExecute`. -/
structure RiskDecision where
  allowed : Bool
  reason : Option String
deriving DecidableEq, Repr

/-- Result of `riskManager.ensureGasBalance`. -/
structure GasCheck where
  ok : Bool
deriving DecidableEq, Repr

/-- The audit row assembled by `logDecision` (`engine.ts` lines 171-185).
The ISO-8601 rendering of the timestamp is elided; `ts` keeps the `now`
value it is derived from. -/
structure DecisionRecord where
  ts : Int
  market_id : String
  yes_ask : Rat
  no_ask : Rat
  edge_bps : Rat
  liquidity : Rat
  spread_bps : Rat
  est_profit_usd : Rat
  action : String
  reason : String
  planned_size : Option Rat
  tx_hash : Option String
  status : String
deriving DecidableEq, Repr

/-- Observable collaborator invocations, recorded in source order so that
claims about which collaborators are called, and in which order, can be
stated. -/
inductive EngineEvent where
  | tradeSubmitted (marketId : String)
  | execCalled (plan : ExecutionPlan)
  | tradeSuccess (marketId : String)
  | tradeFailure (marketId : String) (reason : String)
deriving DecidableEq, Repr

/-- Mutable engine-instance state threaded through a scan: the
`activeTrades` counter, the decision rows appended so far, the info/warn log
lines, and the collaborator-call trace.  `peakActive` is a ghost observer:
the largest value `activeTrades` has ever held, updated at the single place
the counter is incremented, so that claims about the counter "at every
instant" can be stated on final states. -/
structure EngineState where
  activeTrades : Nat
  peakActive : Nat
  decisions : List DecisionRecord
  infoLog : List String
  warnLog : List String
  events : List EngineEvent
deriving DecidableEq, Repr

/-- Fresh engine state (`activeTrades = 0` as in the class initializer). -/
def EngineState.init : EngineState := ⟨0, 0, [], [], [], []⟩

def EngineState.logInfo (s : EngineState) (m : String) : EngineState :=
  { s with infoLog := s.infoLog ++ [m] }

def EngineState.logWarn (s : EngineState) (m : String) : EngineState :=
  { s with warnLog := s.warnLog ++ [m] }

def EngineState.emit (s : EngineState) (e : EngineEvent) : EngineState :=
  { s with events := s.events ++ [e] }

/-- The single increment site `this.activeTrades += 1` (line 136), with the
ghost peak observer updated alongside. -/
def EngineState.incrActive (s : EngineState) : EngineState :=
  { s with activeTrades := s.activeTrades + 1,
           peakActive := max s.peakActive (s.activeTrades + 1) }

/-- The single decrement site `this.activeTrades -= 1` (line 151). -/
def EngineState.decrActive (s : EngineState) : EngineState :=
  { s with activeTrades := s.activeTrades - 1 }

/-- The collaborators and configuration the engine consumes.  Every
collaborator call that can throw returns an `Except JsError`.
`findOpportunities` is the strategy, `maxConcurrentTrades` the admission cap
from `ArbConfig`, and `hasDecisionLogger` whether the optional
`decisionLogger` was supplied. -/
structure Env where
  getActiveMarkets : Except JsError (List Market)
  getOrderBookTop : String → Except JsError OrderBookTop
  findOpportunities : List MarketSnapshot → Int → Except JsError (List Opportunity)
  canExecute : Opportunity → Int → Except JsError RiskDecision
  ensureGasBalance : Int → Except JsError GasCheck
  onTradeSubmitted : Opportunity → Int → Except JsError Unit
  onTradeSuccess : Opportunity → Int → Except JsError Unit
  onTradeFailure : Opportunity → Int → String → Except JsError Unit
  execute : ExecutionPlan → Int → Except JsError ExecutionResult
  maxConcurrentTrades : Nat
  hasDecisionLogger : Bool

/-- JS `s || d` on an optional string: JS treats the empty string as falsy,
so both an absent and an empty string fall back to the default. -/
def jsOr (s : Option String) (d : String) : String :=
  match s with
  | none => d
  | some r => if r = "" then d else r

/-- The record object passed to `decisionLogger.append` (lines 171-185). -/
def mkRecord (o : Opportunity) (action reason : String) (now : Int)
    (plannedSize : Option Rat) (txHash : Option String) : DecisionRecord :=
  { ts := now
    market_id := o.marketId
    yes_ask := o.yesAsk
    no_ask := o.noAsk
    edge_bps := o.edgeBps
    liquidity := o.liquidityUsd
    spread_bps := o.spreadBps
    est_profit_usd := o.estProfitUsd
    action := action
    reason := reason
    planned_size := plannedSize
    tx_hash := txHash
    status := if action = "trade" then "submitted" else "skipped" }

/-- The private `logDecision` method (lines 162-186): a no-op without a
decision logger, otherwise appends one audit row. -/
def logDecision (env : Env) (s : EngineState) (o : Opportunity)
    (action reason : String) (now : Int)
    (plannedSize : Option Rat) (txHash : Option String) : EngineState :=
  if env.hasDecisionLogger then
    { s with decisions := s.decisions ++ [mkRecord o action reason now plannedSize txHash] }
  else s

/-- The private `getOrderBookTopSafe` method (lines 99-115): a not-found
error becomes the zeroed sentinel with `failed := true` (after a warn log);
any other error propagates unchanged; success is passed through with
`failed := false`. -/
def getOrderBookTopSafe (env : Env) (tokenId marketId : String)
    (s : EngineState) : EngineState × Except JsError (OrderBookTop × Bool) :=
  match env.getOrderBookTop tokenId with
  | .ok top => (s, .ok (top, false))
  | .error (.orderbookNotFound _) =>
      (s.logWarn ("[ARB] Invalid orderbook token " ++ tokenId ++ " for market "
          ++ marketId ++ ". Remove from config/watchlist if applicable."),
       .ok ({ bestAsk := 0, bestBid := 0 }, true))
  | .error (.other m) => (s, .error (.other m))

/-- The snapshot-building fan-out of `scanOnce` (lines 59-74): per market,
fetch the YES top then the NO top through the safe wrapper, accumulate the
two failure counters, and build one snapshot per market.  Returns the
snapshot list in market order together with `orderbookFailures` and
`marketsWithOrderbookFailures`; a non-recoverable fetch error rejects the
whole phase, as a `Promise.all` rejection does. -/
def buildSnapshots (env : Env) :
    List Market → EngineState →
      EngineState × Except JsError (List MarketSnapshot × Nat × Nat)
  | [], s => (s, .ok ([], 0, 0))
  | m :: rest, s =>
    match getOrderBookTopSafe env m.yesTokenId m.marketId s with
    | (s1, .error e) => (s1, .error e)
    | (s1, .ok (yesTop, yesFailed)) =>
      match getOrderBookTopSafe env m.noTokenId m.marketId s1 with
      | (s2, .error e) => (s2, .error e)
      | (s2, .ok (noTop, noFailed)) =>
        match buildSnapshots env rest s2 with
        | (s3, .error e) => (s3, .error e)
        | (s3, .ok (snaps, obFail, mkFail)) =>
          (s3, .ok (⟨m.marketId, m.yesTokenId, m.noTokenId, yesTop, noTop⟩ :: snaps,
            ((if yesFailed then 1 else 0) + (if noFailed then 1 else 0)) + obFail,
            (if yesFailed || noFailed then 1 else 0) + mkFail))

/-- The plan object literal of `handleOpportunity` (lines 139-148). -/
def mkPlan (o : Opportunity) : ExecutionPlan :=
  ⟨o.marketId, o.yesTokenId, o.noTokenId, o.yesAsk, o.noAsk, o.sizeUsd,
   o.edgeBps, o.estProfitUsd⟩

/-- The private `handleOpportunity` method (lines 117-160).  A `some e` in
the second component is an exception propagating out, paired with the state
at the throw point (in particular, an executor throw happens after the
increment of `activeTrades` and before the decrement). -/
def handleOpportunity (env : Env) (o : Opportunity) (now : Int)
    (s : EngineState) : EngineState × Option JsError :=
  match env.canExecute o now with
  | .error e => (s, some e)
  | .ok d =>
    if !d.allowed then
      let reason := jsOr d.reason "filtered"
      let s1 := s.logInfo ("[ARB] Skip market=" ++ o.marketId ++ " reason=" ++ reason)
      (logDecision env s1 o "skip" reason now none none, none)
    else
      match env.ensureGasBalance now with
      | .error e => (s, some e)
      | .ok g =>
        if !g.ok then
          let s1 := s.logWarn ("[ARB] Skip market=" ++ o.marketId ++ " reason=low_gas")
          (logDecision env s1 o "skip" "low_gas" now none none, none)
        else
          let s1 := (s.incrActive).emit (.tradeSubmitted o.marketId)
          match env.onTradeSubmitted o now with
          | .error e => (s1, some e)
          | .ok _ =>
            let plan := mkPlan o
            let s2 := s1.emit (.execCalled plan)
            match env.execute plan now with
            | .error e => (s2, some e)
            | .ok result =>
              let s3 := s2.decrActive
              if result.status = "submitted" || result.status = "dry_run" then
                let s4 := s3.emit (.tradeSuccess o.marketId)
                match env.onTradeSuccess o now with
                | .error e => (s4, some e)
                | .ok _ =>
                  (logDecision env s4 o "trade" result.status now
                    (some plan.sizeUsd) (result.txHashes.bind List.head?), none)
              else
                let reason := jsOr result.reason result.status
                let s4 := s3.emit (.tradeFailure o.marketId reason)
                match env.onTradeFailure o now reason with
                | .error e => (s4, some e)
                | .ok _ => (logDecision env s4 o "skip" reason now none none, none)

/-- The opportunity loop of `scanOnce` (lines 89-92): iterate in order,
breaking as soon as `activeTrades` has reached the admission cap; an
exception from `handleOpportunity` aborts the rest of the loop. -/
def processOpps (env : Env) (now : Int) :
    List Opportunity → EngineState → EngineState × Option JsError
  | [], s => (s, none)
  | o :: rest, s =>
    if env.maxConcurrentTrades ≤ s.activeTrades then (s, none)
    else
      match handleOpportunity env o now s with
      | (s1, none) => processOpps env now rest s1
      | (s1, some e) => (s1, some e)

/-- The comparator `(a, b) => b.estProfitUsd - a.estProfitUsd` of line 77,
as the stable-sort order it induces: `a` may stay before `b` iff
`b.estProfitUsd ≤ a.estProfitUsd`. -/
def oppLE (a b : Opportunity) : Bool :=
  decide (b.estProfitUsd ≤ a.estProfitUsd)

/-- The in-place `opportunities.sort(...)` of line 77, modelled as the
stable merge sort with the descending-profit order (JS engines' sort is
stable). -/
def sortOpps (l : List Opportunity) : List Opportunity :=
  l.mergeSort oppLE

/-- The summary log line of lines 78-87 (numeric formatting elided). -/
def summaryLine (sorted : List Opportunity) : String :=
  match sorted with
  | [] => "[ARB] Scan complete: 0 opportunities"
  | top :: _ => "[ARB] Found opportunity(ies). Top market=" ++ top.marketId

/-- The body of `scanOnce` inside the `try` (lines 58-92): market listing,
snapshot assembly, strategy evaluation, sorting, the summary log, then the
opportunity loop.  A `some e` second component is the exception reaching the
`catch`. -/
def scanOnceBody (env : Env) (now : Int) (s : EngineState) :
    EngineState × Option JsError :=
  match env.getActiveMarkets with
  | .error e => (s, some e)
  | .ok markets =>
    match buildSnapshots env markets s with
    | (s1, .error e) => (s1, some e)
    | (s1, .ok (snapshots, _, _)) =>
      match env.findOpportunities snapshots now with
      | .error e => (s1, some e)
      | .ok opps =>
        let sorted := sortOpps opps
        let s2 := s1.logInfo (summaryLine sorted)
        processOpps env now sorted s2

/-- The public `scanOnce` method (lines 56-97): runs the body and converts
any exception into one warn line, so the method itself always returns
normally. -/
def scanOnce (env : Env) (now : Int) (s : EngineState) : EngineState :=
  match scanOnceBody env now s with
  | (s1, none) => s1
  | (s1, some e) => s1.logWarn ("[ARB] Scan error: " ++ e.message)

/-- Modelled from the spec: the `Semaphore` bounded-concurrency limiter of
`src/arbitrage/utils/limiter` is not present under `src/` (only its import
and construction site, `engine.ts` lines 6 and 36, are).  Following spec
§4.1, a limiter run is a pool of operations each of which is still waiting
for a permit, currently holding a permit (in flight), or finished; the state
abstracts operations to these three counts plus the fixed capacity `cap`. -/
structure SemState where
  cap : Nat
  waiting : Nat
  inFlight : Nat
  finished : Nat
deriving DecidableEq, Repr

/-- Permits not currently held. -/
def SemState.availablePermits (s : SemState) : Nat := s.cap - s.inFlight

/-- Modelled from the spec: the initial limiter state, with `n` operations
queued and no permit held.  The engine constructs its limiter with capacity
6 (`engine.ts` line 36). -/
def SemState.start (cap n : Nat) : SemState := ⟨cap, n, 0, 0⟩

/-- Modelled from the spec: the state after one in-flight operation
completes — on the success path and on the failure path alike, the permit is
released (spec §4.1: guaranteed release, no leaks).  The `ok` flag records
which path was taken; both produce the same state. -/
def SemState.finishOne (s : SemState) (ok : Bool) : SemState :=
  ⟨s.cap, s.waiting, s.inFlight - 1, s.finished + 1⟩

/-- Modelled from the spec: the transitions of `withSlot`.  A waiting
operation may acquire a permit only while fewer than `cap` are in flight
(backpressure: callers beyond the cap wait); an in-flight operation may
finish, successfully or not, releasing its permit either way. -/
inductive SemStep : SemState → SemState → Prop where
  | acquire {s : SemState} (hw : 0 < s.waiting) (hcap : s.inFlight < s.cap) :
      SemStep s ⟨s.cap, s.waiting - 1, s.inFlight + 1, s.finished⟩
  | finish {s : SemState} (ok : Bool) (hr : 0 < s.inFlight) :
      SemStep s (s.finishOne ok)

/-- States a limiter run can reach from `SemState.start cap n`. -/
inductive SemReachable (cap n : Nat) : SemState → Prop where
  | init : SemReachable cap n (SemState.start cap n)
  | step {s t : SemState} : SemReachable cap n s → SemStep s t →
      SemReachable cap n t

/-! Helper predicates and lemmas shared by the claim theorems. -/

/-- The call does not throw. -/
def ExceptOk {α : Type} (x : Except JsError α) : Prop := ∃ v, x = Except.ok v

/-- The two collaborator calls sitting between the increment and the
decrement of `activeTrades` (plus the executor itself) return rather than
throw. -/
def PostAdmitTotal (env : Env) : Prop :=
  (∀ o t, ExceptOk (env.onTradeSubmitted o t)) ∧
  (∀ p t, ExceptOk (env.execute p t))

/-- Side-failure indicator derived from the provider alone: whether the
fetch of this token fails with the distinguished not-found error. -/
def sideFails (env : Env) (tid : String) : Bool :=
  match env.getOrderBookTop tid with
  | .error (.orderbookNotFound _) => true
  | _ => false

/-! Concrete collaborator environments used by witnesses, scenarios and
counterexamples. -/

/-- A sample opportunity with estimated profit 10. -/
def oppA : Opportunity :=
  ⟨"M-A", "YA", "NA", 1/2, 1/2, 100, 50, 10, 1000, 10⟩

/-- A sample opportunity with estimated profit 5. -/
def oppB : Opportunity :=
  ⟨"M-B", "YB", "NB", 1/2, 1/2, 100, 25, 5, 1000, 10⟩

/-- Collaborators that all succeed; the strategy proposes `oppB` (profit 5)
before `oppA` (profit 10), and the executor submits. -/
def okEnv : Env where
  getActiveMarkets := .ok []
  getOrderBookTop := fun _ => .ok ⟨1/2, 1/2⟩
  findOpportunities := fun _ _ => .ok [oppB, oppA]
  canExecute := fun _ _ => .ok ⟨true, none⟩
  ensureGasBalance := fun _ => .ok ⟨true⟩
  onTradeSubmitted := fun _ _ => .ok ()
  onTradeSuccess := fun _ _ => .ok ()
  onTradeFailure := fun _ _ _ => .ok ()
  execute := fun _ _ => .ok ⟨"submitted", none, some ["0xabc"]⟩
  maxConcurrentTrades := 5
  hasDecisionLogger := true

/-- Same as `okEnv` except the executor throws. -/
def throwingExecEnv : Env :=
  { okEnv with
    findOpportunities := fun _ _ => .ok [oppA]
    execute := fun _ _ => .error (.other "executor crash") }

/-- A provider environment whose orderbook fetches always throw the
distinguished not-found error. -/
def notFoundEnv : Env :=
  { okEnv with getOrderBookTop := fun _ => .error (.orderbookNotFound "404") }

/-- Same as `okEnv` except the market listing throws. -/
def failingListEnv : Env :=
  { okEnv with getActiveMarkets := .error (.other "boom") }

/-- Same as `okEnv` except the executor reports a dry run for the single
opportunity `oppA`. -/
def dryRunEnv : Env :=
  { okEnv with
    findOpportunities := fun _ _ => .ok [oppA]
    execute := fun _ _ => .ok ⟨"dry_run", none, none⟩ }

/-- An environment whose risk manager rejects everything with reason
`EXPOSURE_LIMIT`. -/
def rejectingEnv : Env :=
  { okEnv with canExecute := fun _ _ => .ok ⟨false, some "EXPOSURE_LIMIT"⟩ }

/-- An environment that admits but has an insufficient gas balance. -/
def lowGasEnv : Env :=
  { okEnv with ensureGasBalance := fun _ => .ok ⟨false⟩ }

/-- The two markets of the C5 scenario. -/
def scenM1 : Market := ⟨"M1", "Y1", "N1"⟩

/-- The second market of the C5 scenario; its NO token is `N2`. -/
def scenM2 : Market := ⟨"M2", "Y2", "N2"⟩

/-- The C5 scenario environment: every orderbook fetch succeeds except the
one for token `N2`, which fails with the distinguished not-found error. -/
def scenEnv : Env :=
  { okEnv with
    getActiveMarkets := .ok [scenM1, scenM2]
    getOrderBookTop := fun tid =>
      if tid = "N2" then .error (.orderbookNotFound "not found")
      else .ok ⟨1/2, 2/5⟩ }

theorem handleOpportunity_active (env : Env) (o : Opportunity) (now : Int)
    (s : EngineState) (s' : EngineState) (err : Option JsError)
    (h : handleOpportunity env o now s = (s', err)) :
    s'.activeTrades = s.activeTrades ∨
      (s'.activeTrades = s.activeTrades + 1 ∧ err ≠ none ∧
        (¬ ExceptOk (env.onTradeSubmitted o now) ∨
         ¬ ExceptOk (env.execute (mkPlan o) now))) := by
  unfold handleOpportunity at h
  cases hce : env.canExecute o now with
  | error e => simp only [hce] at h; cases h; left; rfl
  | ok d =>
    simp only [hce] at h
    obtain ⟨allowed, dreason⟩ := d
    cases allowed with
    | false =>
      simp only [Bool.not_false, if_true] at h
      cases h
      left
      simp only [logDecision]
      split <;> simp [EngineState.logInfo]
    | true =>
      simp only [Bool.not_true, Bool.false_eq_true, if_false] at h
      cases hgb : env.ensureGasBalance now with
      | error e => simp only [hgb] at h; cases h; left; rfl
      | ok g =>
        simp only [hgb] at h
        obtain ⟨gok⟩ := g
        cases gok with
        | false =>
          simp only [Bool.not_false, if_true] at h
          cases h
          left
          simp only [logDecision]
          split <;> simp [EngineState.logWarn]
        | true =>
          simp only [Bool.not_true, Bool.false_eq_true, if_false] at h
          cases hsub : env.onTradeSubmitted o now with
          | error e =>
            simp only [hsub] at h
            cases h
            right
            refine ⟨by simp [EngineState.emit, EngineState.incrActive],
              by simp, Or.inl ?_⟩
            rintro ⟨v, hv⟩
            cases hv
          | ok u =>
            simp only [hsub] at h
            cases hex : env.execute (mkPlan o) now with
            | error e =>
              simp only [hex] at h
              cases h
              right
              refine ⟨by simp [EngineState.emit, EngineState.incrActive],
                by simp, Or.inr ?_⟩
              rintro ⟨v, hv⟩
              cases hv
            | ok result =>
              simp only [hex] at h
              cases hst : (decide (result.status = "submitted") ||
                  decide (result.status = "dry_run")) with
              | true =>
                simp only [hst, if_true] at h
                cases hsc : env.onTradeSuccess o now with
                | error e =>
                  simp only [hsc] at h
                  cases h
                  left
                  simp [EngineState.emit, EngineState.decrActive,
                    EngineState.incrActive]
                | ok u2 =>
                  simp only [hsc] at h
                  cases h
                  left
                  simp only [logDecision]
                  split <;>
                    simp [EngineState.emit, EngineState.decrActive,
                      EngineState.incrActive]
              | false =>
                simp only [hst, Bool.false_eq_true, if_false] at h
                cases hsf : env.onTradeFailure o now
                    (jsOr result.reason result.status) with
                | error e =>
                  simp only [hsf] at h
                  cases h
                  left
                  simp [EngineState.emit, EngineState.decrActive,
                    EngineState.incrActive]
                | ok u2 =>
                  simp only [hsf] at h
                  cases h
                  left
                  simp only [logDecision]
                  split <;>
                    simp [EngineState.emit, EngineState.decrActive,
                      EngineState.incrActive]

theorem handleOpportunity_active_total (env : Env) (o : Opportunity)
    (now : Int) (s : EngineState) (h : PostAdmitTotal env) :
    (handleOpportunity env o now s).1.activeTrades = s.activeTrades := by
  rcases hh : handleOpportunity env o now s with ⟨s', err⟩
  rcases handleOpportunity_active env o now s s' err hh with h1 | ⟨_, _, hbad⟩
  · exact h1
  · rcases hbad with hb | hb
    · exact absurd (h.1 o now) hb
    · exact absurd (h.2 (mkPlan o) now) hb

theorem processOpps_active_total (env : Env) (now : Int)
    (h : PostAdmitTotal env) :
    ∀ opps s, (processOpps env now opps s).1.activeTrades = s.activeTrades
  | [], s => rfl
  | o :: rest, s => by
    unfold processOpps
    split
    · rfl
    · rcases hh : handleOpportunity env o now s with ⟨s1, err⟩
      have h1 : s1.activeTrades = s.activeTrades := by
        have := handleOpportunity_active_total env o now s h
        rw [hh] at this
        exact this
      cases err with
      | none =>
        show (processOpps env now rest s1).1.activeTrades = s.activeTrades
        rw [processOpps_active_total env now h rest s1, h1]
      | some e => exact h1

theorem getOrderBookTopSafe_frame (env : Env) (tid mid : String)
    (s : EngineState) :
    (getOrderBookTopSafe env tid mid s).1.activeTrades = s.activeTrades ∧
    (getOrderBookTopSafe env tid mid s).1.peakActive = s.peakActive ∧
    (getOrderBookTopSafe env tid mid s).1.decisions = s.decisions ∧
    (getOrderBookTopSafe env tid mid s).1.events = s.events := by
  unfold getOrderBookTopSafe
  cases env.getOrderBookTop tid with
  | ok top => exact ⟨rfl, rfl, rfl, rfl⟩
  | error e => cases e <;> exact ⟨rfl, rfl, rfl, rfl⟩

theorem buildSnapshots_frame (env : Env) :
    ∀ (ms : List Market) (s s' : EngineState)
      (r : Except JsError (List MarketSnapshot × Nat × Nat)),
      buildSnapshots env ms s = (s', r) →
      s'.activeTrades = s.activeTrades ∧
      s'.peakActive = s.peakActive ∧
      s'.decisions = s.decisions ∧
      s'.events = s.events
  | [], s, s', r, h => by cases h; exact ⟨rfl, rfl, rfl, rfl⟩
  | m :: rest, s, s', r, h => by
    unfold buildSnapshots at h
    rcases h1 : getOrderBookTopSafe env m.yesTokenId m.marketId s
      with ⟨s1, r1⟩
    have hf1 := getOrderBookTopSafe_frame env m.yesTokenId m.marketId s
    rw [h1] at hf1 h
    simp only [] at hf1
    cases r1 with
    | error e => cases h; exact hf1
    | ok v1 =>
      rcases v1 with ⟨yesTop, yesFailed⟩
      simp only [] at h
      rcases h2 : getOrderBookTopSafe env m.noTokenId m.marketId s1
        with ⟨s2, r2⟩
      have hf2 := getOrderBookTopSafe_frame env m.noTokenId m.marketId s1
      rw [h2] at hf2 h
      simp only [] at hf2
      cases r2 with
      | error e =>
        cases h
        exact ⟨hf2.1.trans hf1.1, hf2.2.1.trans hf1.2.1,
          hf2.2.2.1.trans hf1.2.2.1, hf2.2.2.2.trans hf1.2.2.2⟩
      | ok v2 =>
        rcases v2 with ⟨noTop, noFailed⟩
        simp only [] at h
        rcases h3 : buildSnapshots env rest s2 with ⟨s3, r3⟩
        have hf3 := buildSnapshots_frame env rest s2 s3 r3 h3
        rw [h3] at h
        cases r3 with
        | error e =>
          cases h
          exact ⟨(hf3.1.trans hf2.1).trans hf1.1,
            (hf3.2.1.trans hf2.2.1).trans hf1.2.1,
            (hf3.2.2.1.trans hf2.2.2.1).trans hf1.2.2.1,
            (hf3.2.2.2.trans hf2.2.2.2).trans hf1.2.2.2⟩
        | ok v3 =>
          rcases v3 with ⟨snaps, obF, mkF⟩
          simp only [] at h
          cases h
          exact ⟨(hf3.1.trans hf2.1).trans hf1.1,
            (hf3.2.1.trans hf2.2.1).trans hf1.2.1,
            (hf3.2.2.1.trans hf2.2.2.1).trans hf1.2.2.1,
            (hf3.2.2.2.trans hf2.2.2.2).trans hf1.2.2.2⟩

theorem scanOnceBody_active_total (env : Env) (now : Int)
    (s s' : EngineState) (err : Option JsError) (h : PostAdmitTotal env)
    (hb : scanOnceBody env now s = (s', err)) :
    s'.activeTrades = s.activeTrades := by
  unfold scanOnceBody at hb
  cases hma : env.getActiveMarkets with
  | error e => simp only [hma] at hb; cases hb; rfl
  | ok markets =>
    simp only [hma] at hb
    rcases hbs : buildSnapshots env markets s with ⟨s1, r1⟩
    have hf1 := (buildSnapshots_frame env markets s s1 r1 hbs).1
    rw [hbs] at hb
    cases r1 with
    | error e => simp only [] at hb; cases hb; exact hf1
    | ok v1 =>
      rcases v1 with ⟨snapshots, obF, mkF⟩
      simp only [] at hb
      cases hfo : env.findOpportunities snapshots now with
      | error e => simp only [hfo] at hb; cases hb; exact hf1
      | ok opps =>
        simp only [hfo] at hb
        have hpa := processOpps_active_total env now h (sortOpps opps)
          (s1.logInfo (summaryLine (sortOpps opps)))
        rw [hb] at hpa
        exact hpa.trans hf1

theorem scanOnce_active_total (env : Env) (now : Int) (s : EngineState)
    (h : PostAdmitTotal env) :
    (scanOnce env now s).activeTrades = s.activeTrades := by
  unfold scanOnce
  rcases hb : scanOnceBody env now s with ⟨s1, err⟩
  have h1 := scanOnceBody_active_total env now s s1 err h hb
  cases err with
  | none => exact h1
  | some e => simpa [EngineState.logWarn] using h1

theorem okEnv_postAdmitTotal : PostAdmitTotal okEnv :=
  ⟨fun _ _ => ⟨(), rfl⟩, fun _ _ => ⟨⟨"submitted", none, some ["0xabc"]⟩, rfl⟩⟩

/-- C1: the claim as stated is false: `activeTrades` is restored to 0 only
when no collaborator throws between the increment and the decrement.  With
an executor that throws, `scanOnce` resolves (the exception is caught and
logged) but `activeTrades` remains 1: the decrement on line 151 of
`engine.ts` is skipped. -/
theorem spec_C1_counterexample :
    (scanOnce throwingExecEnv 0 EngineState.init).activeTrades = 1 := by
  simp [scanOnce, scanOnceBody, throwingExecEnv, okEnv, buildSnapshots,
    sortOpps, summaryLine, processOpps, handleOpportunity, EngineState.init,
    logDecision, EngineState.logInfo, EngineState.logWarn, EngineState.emit,
    EngineState.incrActive, EngineState.decrActive, jsOr, mkPlan, oppA]

/-- C1 (amended): for every market list, strategy output and risk-manager
behaviour, provided the collaborator calls made between the increment and
the decrement of `activeTrades` (`onTradeSubmitted` and `executor.execute`)
return rather than throw, the engine's `activeTrades` counter equals 0
immediately after `scanOnce` resolves whenever it was 0 before. -/
theorem spec_C1_activeTrades_zero (env : Env) (now : Int) (s : EngineState)
    (h : PostAdmitTotal env) (h0 : s.activeTrades = 0) :
    (scanOnce env now s).activeTrades = 0 := by
  rw [scanOnce_active_total env now s h, h0]

/-- C1 witness: the amended theorem applied to an all-succeeding concrete
environment. -/
theorem spec_C1_witness :
    PostAdmitTotal okEnv ∧ EngineState.init.activeTrades = 0 ∧
      (scanOnce okEnv 0 EngineState.init).activeTrades = 0 :=
  ⟨okEnv_postAdmitTotal, rfl,
    spec_C1_activeTrades_zero okEnv 0 EngineState.init okEnv_postAdmitTotal rfl⟩

theorem handleOpportunity_cap (env : Env) (o : Opportunity) (now : Int)
    (s s' : EngineState) (err : Option JsError)
    (h : handleOpportunity env o now s = (s', err))
    (hlt : s.activeTrades < env.maxConcurrentTrades)
    (hpk : s.peakActive ≤ env.maxConcurrentTrades) :
    s'.activeTrades ≤ env.maxConcurrentTrades ∧
      s'.peakActive ≤ env.maxConcurrentTrades := by
  unfold handleOpportunity at h
  cases hce : env.canExecute o now with
  | error e => simp only [hce] at h; cases h; exact ⟨Nat.le_of_lt hlt, hpk⟩
  | ok d =>
    simp only [hce] at h
    obtain ⟨allowed, dreason⟩ := d
    cases allowed with
    | false =>
      simp only [Bool.not_false, if_true] at h
      cases h
      constructor <;>
        · simp only [logDecision]
          split <;> simp [EngineState.logInfo] <;> omega
    | true =>
      simp only [Bool.not_true, Bool.false_eq_true, if_false] at h
      cases hgb : env.ensureGasBalance now with
      | error e => simp only [hgb] at h; cases h; exact ⟨Nat.le_of_lt hlt, hpk⟩
      | ok g =>
        simp only [hgb] at h
        obtain ⟨gok⟩ := g
        cases gok with
        | false =>
          simp only [Bool.not_false, if_true] at h
          cases h
          constructor <;>
            · simp only [logDecision]
              split <;> simp [EngineState.logWarn] <;> omega
        | true =>
          simp only [Bool.not_true, Bool.false_eq_true, if_false] at h
          cases hsub : env.onTradeSubmitted o now with
          | error e =>
            simp only [hsub] at h
            cases h
            constructor <;>
              simp [EngineState.emit, EngineState.incrActive] <;> omega
          | ok u =>
            simp only [hsub] at h
            cases hex : env.execute (mkPlan o) now with
            | error e =>
              simp only [hex] at h
              cases h
              constructor <;>
                simp [EngineState.emit, EngineState.incrActive] <;> omega
            | ok result =>
              simp only [hex] at h
              cases hst : (decide (result.status = "submitted") ||
                  decide (result.status = "dry_run")) with
              | true =>
                simp only [hst, if_true] at h
                cases hsc : env.onTradeSuccess o now with
                | error e =>
                  simp only [hsc] at h
                  cases h
                  constructor <;>
                    simp [EngineState.emit, EngineState.decrActive,
                      EngineState.incrActive] <;> omega
                | ok u2 =>
                  simp only [hsc] at h
                  cases h
                  constructor <;>
                    · simp only [logDecision]
                      split <;>
                        simp [EngineState.emit, EngineState.decrActive,
                          EngineState.incrActive] <;> omega
              | false =>
                simp only [hst, Bool.false_eq_true, if_false] at h
                cases hsf : env.onTradeFailure o now
                    (jsOr result.reason result.status) with
                | error e =>
                  simp only [hsf] at h
                  cases h
                  constructor <;>
                    simp [EngineState.emit, EngineState.decrActive,
                      EngineState.incrActive] <;> omega
                | ok u2 =>
                  simp only [hsf] at h
                  cases h
                  constructor <;>
                    · simp only [logDecision]
                      split <;>
                        simp [EngineState.emit, EngineState.decrActive,
                          EngineState.incrActive] <;> omega

theorem processOpps_cap (env : Env) (now : Int) :
    ∀ (opps : List Opportunity) (s s' : EngineState) (err : Option JsError),
      processOpps env now opps s = (s', err) →
      s.activeTrades ≤ env.maxConcurrentTrades →
      s.peakActive ≤ env.maxConcurrentTrades →
      s'.activeTrades ≤ env.maxConcurrentTrades ∧
        s'.peakActive ≤ env.maxConcurrentTrades
  | [], s, s', err, h, h1, h2 => by cases h; exact ⟨h1, h2⟩
  | o :: rest, s, s', err, h, h1, h2 => by
    unfold processOpps at h
    split at h
    · cases h; exact ⟨h1, h2⟩
    · rename_i hguard
      have hlt : s.activeTrades < env.maxConcurrentTrades :=
        Nat.lt_of_not_le hguard
      rcases hh : handleOpportunity env o now s with ⟨s1, e1⟩
      rw [hh] at h
      have hc := handleOpportunity_cap env o now s s1 e1 hh hlt h2
      cases e1 with
      | none =>
        simp only [] at h
        exact processOpps_cap env now rest s1 s' err h hc.1 hc.2
      | some e => cases h; exact hc

theorem scanOnceBody_cap (env : Env) (now : Int) (s s' : EngineState)
    (err : Option JsError) (hb : scanOnceBody env now s = (s', err))
    (h1 : s.activeTrades ≤ env.maxConcurrentTrades)
    (h2 : s.peakActive ≤ env.maxConcurrentTrades) :
    s'.activeTrades ≤ env.maxConcurrentTrades ∧
      s'.peakActive ≤ env.maxConcurrentTrades := by
  unfold scanOnceBody at hb
  cases hma : env.getActiveMarkets with
  | error e => simp only [hma] at hb; cases hb; exact ⟨h1, h2⟩
  | ok markets =>
    simp only [hma] at hb
    rcases hbs : buildSnapshots env markets s with ⟨s1, r1⟩
    have hf := buildSnapshots_frame env markets s s1 r1 hbs
    rw [hbs] at hb
    cases r1 with
    | error e => simp only [] at hb; cases hb; exact ⟨hf.1 ▸ h1, hf.2.1 ▸ h2⟩
    | ok v1 =>
      rcases v1 with ⟨snapshots, obF, mkF⟩
      simp only [] at hb
      cases hfo : env.findOpportunities snapshots now with
      | error e => simp only [hfo] at hb; cases hb; exact ⟨hf.1 ▸ h1, hf.2.1 ▸ h2⟩
      | ok opps =>
        simp only [hfo] at hb
        refine processOpps_cap env now (sortOpps opps) _ s' err hb ?_ ?_ <;>
          simp [EngineState.logInfo, hf.1, hf.2.1, h1, h2]

/-- C2: at every instant during a scan (captured by the ghost peak observer
`peakActive`, updated at the counter's single increment site),
`activeTrades` is at most the configured `maxConcurrentTrades` cap, and the
opportunity loop stops as soon as the counter has reached the cap, leaving
the state untouched so remaining opportunities are deferred, not queued. -/
theorem spec_C2_cap_invariant (env : Env) (now : Int) (s : EngineState)
    (h1 : s.activeTrades ≤ env.maxConcurrentTrades)
    (h2 : s.peakActive ≤ env.maxConcurrentTrades) :
    ((scanOnce env now s).activeTrades ≤ env.maxConcurrentTrades ∧
      (scanOnce env now s).peakActive ≤ env.maxConcurrentTrades) ∧
    (∀ opps s0, env.maxConcurrentTrades ≤ s0.activeTrades →
      processOpps env now opps s0 = (s0, none)) := by
  constructor
  · unfold scanOnce
    rcases hb : scanOnceBody env now s with ⟨s1, err⟩
    have hc := scanOnceBody_cap env now s s1 err hb h1 h2
    cases err with
    | none => exact hc
    | some e => simpa [EngineState.logWarn] using hc
  · intro opps s0 hge
    cases opps with
    | nil => rfl
    | cons o rest =>
      unfold processOpps
      rw [if_pos hge]

/-- C2 witness: the invariant applied to the concrete all-succeeding
environment and a fresh engine state, plus the early-stop conjunct at a
state already at the cap. -/
theorem spec_C2_witness :
    ((scanOnce okEnv 0 EngineState.init).activeTrades ≤ 5 ∧
      (scanOnce okEnv 0 EngineState.init).peakActive ≤ 5) ∧
    processOpps okEnv 0 [oppA] ⟨5, 5, [], [], [], []⟩ =
      (⟨5, 5, [], [], [], []⟩, none) := by
  have h := spec_C2_cap_invariant okEnv 0 EngineState.init
    (by decide) (by decide)
  exact ⟨h.1, h.2 [oppA] ⟨5, 5, [], [], [], []⟩ (by decide)⟩

theorem oppLE_trans (a b c : Opportunity) (hab : oppLE a b) (hbc : oppLE b c) :
    oppLE a c := by
  simp only [oppLE, decide_eq_true_eq] at hab hbc ⊢
  exact le_trans hbc hab

theorem oppLE_total (a b : Opportunity) : oppLE a b || oppLE b a := by
  simp only [oppLE, Bool.or_eq_true, decide_eq_true_eq]
  exact le_total _ _

theorem sortOpps_sorted (l : List Opportunity) :
    (sortOpps l).Pairwise (fun a b => b.estProfitUsd ≤ a.estProfitUsd) := by
  have h := List.sorted_mergeSort oppLE_trans oppLE_total l
  exact h.imp (by intro a b hab; simpa [oppLE] using hab)

unseal List.mergeSort List.merge in
/-- C3: within any scan, the list the engine iterates is the strategy output
sorted into non-increasing estimated-USD-profit order (so the opportunities
handed to `handleOpportunity`, a prefix of it, are attempted in that order);
and in the concrete scenario where the strategy proposes profits 5 and 10,
both allowed with cap 5, the executor is invoked for the profit-10
opportunity strictly before the profit-5 one, and both yield `trade`
decisions. -/
theorem spec_C3_profit_order :
    (∀ l : List Opportunity,
      (sortOpps l).Pairwise (fun a b => b.estProfitUsd ≤ a.estProfitUsd)) ∧
    (scanOnce okEnv 0 EngineState.init).events =
      [.tradeSubmitted "M-A", .execCalled (mkPlan oppA), .tradeSuccess "M-A",
       .tradeSubmitted "M-B", .execCalled (mkPlan oppB), .tradeSuccess "M-B"] ∧
    (scanOnce okEnv 0 EngineState.init).decisions.map (fun r => r.action) =
      ["trade", "trade"] :=
  ⟨sortOpps_sorted, rfl, rfl⟩

/-- C4: the safe fetch wrapper returns the zeroed sentinel with
`failed := true` (after a warn log naming the token and market), without
propagating, exactly when the provider throws the distinguished not-found
error; any other thrown error propagates unchanged; and on provider success
the provider's top is returned with `failed := false`. -/
theorem spec_C4_safe_fetch (env : Env) (tokenId marketId : String)
    (s : EngineState) :
    (∀ m, env.getOrderBookTop tokenId = .error (.orderbookNotFound m) →
      getOrderBookTopSafe env tokenId marketId s =
        (s.logWarn ("[ARB] Invalid orderbook token " ++ tokenId
            ++ " for market " ++ marketId
            ++ ". Remove from config/watchlist if applicable."),
         .ok (⟨0, 0⟩, true))) ∧
    (∀ m, env.getOrderBookTop tokenId = .error (.other m) →
      getOrderBookTopSafe env tokenId marketId s = (s, .error (.other m))) ∧
    (∀ top, env.getOrderBookTop tokenId = .ok top →
      getOrderBookTopSafe env tokenId marketId s = (s, .ok (top, false))) ∧
    ((∃ b, (getOrderBookTopSafe env tokenId marketId s).2 = .ok (b, true)) ↔
      (∃ m, env.getOrderBookTop tokenId = .error (.orderbookNotFound m))) := by
  unfold getOrderBookTopSafe
  cases hg : env.getOrderBookTop tokenId with
  | ok top =>
    refine ⟨fun m hm => ?_, fun m hm => ?_, fun t ht => ?_, ?_⟩
    · cases hm
    · cases hm
    · cases ht; rfl
    · simp
  | error e =>
    cases e with
    | orderbookNotFound m0 =>
      refine ⟨fun m hm => ?_, fun m hm => ?_, fun t ht => ?_, ?_⟩
      · cases hm; rfl
      · cases hm
      · cases ht
      · simp
    | other m0 =>
      refine ⟨fun m hm => ?_, fun m hm => ?_, fun t ht => ?_, ?_⟩
      · cases hm
      · cases hm; rfl
      · cases ht
      · simp

/-- C4 witness: the wrapper applied under `notFoundEnv` returns the zeroed
sentinel and a warn log without propagating. -/
theorem spec_C4_witness :
    getOrderBookTopSafe notFoundEnv "T1" "M1" EngineState.init =
      (EngineState.init.logWarn ("[ARB] Invalid orderbook token T1 for market "
          ++ "M1. Remove from config/watchlist if applicable."),
       .ok (⟨0, 0⟩, true)) :=
  (spec_C4_safe_fetch notFoundEnv "T1" "M1" EngineState.init).1 "404" rfl

theorem getOrderBookTopSafe_failed (env : Env) (tid mid : String)
    (s s1 : EngineState) (top : OrderBookTop) (fl : Bool)
    (h : getOrderBookTopSafe env tid mid s = (s1, .ok (top, fl))) :
    fl = sideFails env tid := by
  unfold getOrderBookTopSafe at h
  unfold sideFails
  cases hg : env.getOrderBookTop tid with
  | ok t => simp only [hg] at h; cases h; rfl
  | error e =>
    cases e with
    | orderbookNotFound m => simp only [hg] at h; cases h; rfl
    | other m => simp only [hg] at h; cases h

theorem buildSnapshots_counts (env : Env) :
    ∀ (ms : List Market) (s s' : EngineState) (snaps : List MarketSnapshot)
      (ob mk : Nat),
      buildSnapshots env ms s = (s', .ok (snaps, ob, mk)) →
      snaps.length = ms.length ∧
      ob = (ms.map (fun m => (if sideFails env m.yesTokenId then 1 else 0) +
        (if sideFails env m.noTokenId then 1 else 0))).sum ∧
      mk = (ms.filter (fun m => sideFails env m.yesTokenId ||
        sideFails env m.noTokenId)).length
  | [], s, s', snaps, ob, mk, h => by cases h; simp
  | m :: rest, s, s', snaps, ob, mk, h => by
    unfold buildSnapshots at h
    rcases hg1 : getOrderBookTopSafe env m.yesTokenId m.marketId s
      with ⟨s1, r1⟩
    rw [hg1] at h
    cases r1 with
    | error e => simp at h
    | ok v1 =>
      rcases v1 with ⟨yesTop, yesFailed⟩
      have hy := getOrderBookTopSafe_failed env m.yesTokenId m.marketId
        s s1 yesTop yesFailed hg1
      simp only [] at h
      rcases hg2 : getOrderBookTopSafe env m.noTokenId m.marketId s1
        with ⟨s2, r2⟩
      rw [hg2] at h
      cases r2 with
      | error e => simp at h
      | ok v2 =>
        rcases v2 with ⟨noTop, noFailed⟩
        have hn := getOrderBookTopSafe_failed env m.noTokenId m.marketId
          s1 s2 noTop noFailed hg2
        simp only [] at h
        rcases hbs : buildSnapshots env rest s2 with ⟨s3, r3⟩
        rw [hbs] at h
        cases r3 with
        | error e => simp at h
        | ok v3 =>
          rcases v3 with ⟨snaps', ob', mk'⟩
          simp only [] at h
          subst hy
          subst hn
          cases h
          have IH := buildSnapshots_counts env rest s2 _ snaps' ob' mk' hbs
          refine ⟨by simp [IH.1], ?_, ?_⟩
          · simp only [List.map_cons, List.sum_cons, IH.2.1]
          · simp only [List.filter_cons, IH.2.2]
            split_ifs <;> simp [Nat.add_comm]

/-- C5: for any market list, a successful snapshot phase yields exactly one
snapshot per market (failed sides carrying the zeroed sentinel), and the
counters satisfy `orderbookFailures` = number of individually failed sides
and `marketsWithOrderbookFailures` = number of markets with at least one
failed side; in the concrete scenario with markets `[M1, M2]` where only
`M2`'s NO side (`N2`) fails as not-found, the snapshot count is 2, the
counters are 1 and 1, and `M2`'s NO top is the zeroed sentinel. -/
theorem spec_C5_snapshot_counters :
    (∀ (env : Env) (ms : List Market) (s s' : EngineState)
      (snaps : List MarketSnapshot) (ob mk : Nat),
      buildSnapshots env ms s = (s', .ok (snaps, ob, mk)) →
      snaps.length = ms.length ∧
      ob = (ms.map (fun m => (if sideFails env m.yesTokenId then 1 else 0) +
        (if sideFails env m.noTokenId then 1 else 0))).sum ∧
      mk = (ms.filter (fun m => sideFails env m.yesTokenId ||
        sideFails env m.noTokenId)).length) ∧
    (buildSnapshots scenEnv [scenM1, scenM2] EngineState.init).2 =
      .ok ([⟨"M1", "Y1", "N1", ⟨1/2, 2/5⟩, ⟨1/2, 2/5⟩⟩,
            ⟨"M2", "Y2", "N2", ⟨1/2, 2/5⟩, ⟨0, 0⟩⟩], 1, 1) :=
  ⟨fun env ms s s' snaps ob mk h =>
    buildSnapshots_counts env ms s s' snaps ob mk h, rfl⟩

/-- C5 witness: the counting conjunct applied to the concrete scenario,
with its hypothesis discharged by computation. -/
theorem spec_C5_witness :
    ([⟨"M1", "Y1", "N1", ⟨1/2, 2/5⟩, ⟨1/2, 2/5⟩⟩,
      ⟨"M2", "Y2", "N2", ⟨1/2, 2/5⟩, ⟨0, 0⟩⟩] :
        List MarketSnapshot).length = [scenM1, scenM2].length ∧
    1 = ([scenM1, scenM2].map
      (fun m => (if sideFails scenEnv m.yesTokenId then 1 else 0) +
        (if sideFails scenEnv m.noTokenId then 1 else 0))).sum ∧
    1 = ([scenM1, scenM2].filter
      (fun m => sideFails scenEnv m.yesTokenId ||
        sideFails scenEnv m.noTokenId)).length :=
  spec_C5_snapshot_counters.1 scenEnv [scenM1, scenM2] EngineState.init
    (EngineState.init.logWarn ("[ARB] Invalid orderbook token N2 for market "
      ++ "M2. Remove from config/watchlist if applicable."))
    [⟨"M1", "Y1", "N1", ⟨1/2, 2/5⟩, ⟨1/2, 2/5⟩⟩,
     ⟨"M2", "Y2", "N2", ⟨1/2, 2/5⟩, ⟨0, 0⟩⟩] 1 1 rfl

/-- C6: `scanOnce` never propagates: when the body completes without an
exception `scanOnce` returns its state unchanged, and when any step of the
body throws, `scanOnce` returns the at-throw state with exactly one warn
line carrying the error's message appended; moreover an exception thrown
while processing one opportunity ends the loop there, so not-yet-processed
opportunities of that cycle are skipped. -/
theorem spec_C6_catch_once :
    (∀ (env : Env) (now : Int) (o : Opportunity) (rest : List Opportunity)
      (s s1 : EngineState) (e : JsError),
      s.activeTrades < env.maxConcurrentTrades →
      handleOpportunity env o now s = (s1, some e) →
      processOpps env now (o :: rest) s = (s1, some e)) ∧
    (∀ (env : Env) (now : Int) (s s1 : EngineState),
      scanOnceBody env now s = (s1, none) → scanOnce env now s = s1) ∧
    (∀ (env : Env) (now : Int) (s s1 : EngineState) (e : JsError),
      scanOnceBody env now s = (s1, some e) →
      scanOnce env now s =
        s1.logWarn ("[ARB] Scan error: " ++ e.message)) := by
  refine ⟨?_, ?_, ?_⟩
  · intro env now o rest s s1 e hlt hh
    unfold processOpps
    rw [if_neg (Nat.not_le.mpr hlt), hh]
  · intro env now s s1 hb
    unfold scanOnce
    rw [hb]
  · intro env now s s1 e hb
    unfold scanOnce
    rw [hb]

unseal List.mergeSort List.merge in
/-- C6 witness: the three conjuncts applied to concrete environments — a
clean scan, a scan whose market listing throws, and a loop whose first
opportunity's executor throws with a second opportunity still pending. -/
theorem spec_C6_witness :
    scanOnce okEnv 0 EngineState.init =
      (scanOnceBody okEnv 0 EngineState.init).1 ∧
    scanOnce failingListEnv 0 EngineState.init =
      EngineState.init.logWarn ("[ARB] Scan error: boom") ∧
    processOpps throwingExecEnv 0 [oppA, oppB] EngineState.init =
      ((EngineState.init.incrActive.emit
          (.tradeSubmitted oppA.marketId)).emit (.execCalled (mkPlan oppA)),
        some (.other "executor crash")) :=
  ⟨spec_C6_catch_once.2.1 okEnv 0 EngineState.init _ rfl,
   spec_C6_catch_once.2.2 failingListEnv 0 EngineState.init EngineState.init
     (.other "boom") rfl,
   spec_C6_catch_once.1 throwingExecEnv 0 oppA [oppB] EngineState.init _ _
     (by decide) rfl⟩

/-- C7: an opportunity rejected by admission control leaves the engine
state untouched apart from the audit record: a risk-manager rejection with
a (nonempty) reason appends a `skip` decision carrying that reason and
returns without touching `activeTrades` and without emitting any
collaborator call (no `onTradeSubmitted`, no executor); a failed gas check
does the same with reason `low_gas`. -/
theorem spec_C7_rejection_frame (env : Env) (o : Opportunity) (now : Int)
    (s : EngineState) :
    (∀ r : String, env.canExecute o now = .ok ⟨false, some r⟩ → r ≠ "" →
      (handleOpportunity env o now s).2 = none ∧
      (handleOpportunity env o now s).1.activeTrades = s.activeTrades ∧
      (handleOpportunity env o now s).1.events = s.events ∧
      (env.hasDecisionLogger = true →
        (handleOpportunity env o now s).1.decisions =
          s.decisions ++ [mkRecord o "skip" r now none none])) ∧
    (∀ d : RiskDecision, env.canExecute o now = .ok d → d.allowed = true →
      env.ensureGasBalance now = .ok ⟨false⟩ →
      (handleOpportunity env o now s).2 = none ∧
      (handleOpportunity env o now s).1.activeTrades = s.activeTrades ∧
      (handleOpportunity env o now s).1.events = s.events ∧
      (env.hasDecisionLogger = true →
        (handleOpportunity env o now s).1.decisions =
          s.decisions ++ [mkRecord o "skip" "low_gas" now none none])) := by
  constructor
  · intro r hce hr
    unfold handleOpportunity
    simp only [hce, Bool.not_false, if_true, jsOr, if_neg hr]
    refine ⟨by trivial, ?_, ?_, fun hl => ?_⟩
    · simp only [logDecision]
      split <;> simp [EngineState.logInfo]
    · simp only [logDecision]
      split <;> simp [EngineState.logInfo]
    · simp [logDecision, hl, EngineState.logInfo]
  · intro d hce hall hgas
    obtain ⟨allowed, rs⟩ := d
    cases hall
    unfold handleOpportunity
    simp only [hce, Bool.not_true, Bool.false_eq_true, if_false, hgas,
      Bool.not_false, if_true]
    refine ⟨by trivial, ?_, ?_, fun hl => ?_⟩
    · simp only [logDecision]
      split <;> simp [EngineState.logWarn]
    · simp only [logDecision]
      split <;> simp [EngineState.logWarn]
    · simp [logDecision, hl, EngineState.logWarn]

/-- C7 witness: both rejection paths at concrete environments. -/
theorem spec_C7_witness :
    ((handleOpportunity rejectingEnv oppA 0 EngineState.init).1.events =
        EngineState.init.events ∧
      (handleOpportunity rejectingEnv oppA 0 EngineState.init).1.decisions =
        EngineState.init.decisions ++
          [mkRecord oppA "skip" "EXPOSURE_LIMIT" 0 none none]) ∧
    (handleOpportunity lowGasEnv oppA 0 EngineState.init).1.decisions =
      EngineState.init.decisions ++
        [mkRecord oppA "skip" "low_gas" 0 none none] :=
  ⟨⟨((spec_C7_rejection_frame rejectingEnv oppA 0 EngineState.init).1
      "EXPOSURE_LIMIT" rfl (by decide)).2.2.1,
    ((spec_C7_rejection_frame rejectingEnv oppA 0 EngineState.init).1
      "EXPOSURE_LIMIT" rfl (by decide)).2.2.2 rfl⟩,
   ((spec_C7_rejection_frame lowGasEnv oppA 0 EngineState.init).2
      ⟨true, none⟩ rfl rfl rfl).2.2.2 rfl⟩

/-- C8: for every executor result, a `submitted` or `dry_run` status leads
to `onTradeSuccess` and one `trade` decision row carrying the planned size
and the first transaction hash when present, while any other status leads
to `onTradeFailure` and one `skip` decision row whose reason is
`result.reason` falling back to `result.status` — so `dry_run` takes
exactly the success path. -/
theorem spec_C8_result_handling (env : Env) (o : Opportunity) (now : Int)
    (s : EngineState) (d : RiskDecision) (result : ExecutionResult)
    (hce : env.canExecute o now = .ok d) (hall : d.allowed = true)
    (hgas : env.ensureGasBalance now = .ok ⟨true⟩)
    (hsub : env.onTradeSubmitted o now = .ok ())
    (hexe : env.execute (mkPlan o) now = .ok result)
    (hsc : env.onTradeSuccess o now = .ok ())
    (hsf : env.onTradeFailure o now (jsOr result.reason result.status) = .ok ())
    (hl : env.hasDecisionLogger = true) :
    ((result.status = "submitted" ∨ result.status = "dry_run") →
      (handleOpportunity env o now s).1.events =
        s.events ++ [.tradeSubmitted o.marketId, .execCalled (mkPlan o),
          .tradeSuccess o.marketId] ∧
      (handleOpportunity env o now s).1.decisions =
        s.decisions ++ [mkRecord o "trade" result.status now
          (some o.sizeUsd) (result.txHashes.bind List.head?)]) ∧
    (result.status ≠ "submitted" → result.status ≠ "dry_run" →
      (handleOpportunity env o now s).1.events =
        s.events ++ [.tradeSubmitted o.marketId, .execCalled (mkPlan o),
          .tradeFailure o.marketId (jsOr result.reason result.status)] ∧
      (handleOpportunity env o now s).1.decisions =
        s.decisions ++ [mkRecord o "skip" (jsOr result.reason result.status)
          now none none]) ∧
    (∀ st : String, jsOr none st = st) ∧
    (∀ (r st : String), r ≠ "" → jsOr (some r) st = r) := by
  obtain ⟨allowed, rs⟩ := d
  cases hall
  refine ⟨?_, ?_, fun st => rfl, fun r st hr => by simp [jsOr, hr]⟩
  · intro hor
    have hcond : (decide (result.status = "submitted") ||
        decide (result.status = "dry_run")) = true := by
      rcases hor with h | h <;> simp [h]
    unfold handleOpportunity
    simp only [hce, Bool.not_true, Bool.false_eq_true, if_false, hgas,
      hsub, hexe, hcond, if_true, hsc]
    constructor <;>
      simp [logDecision, hl, EngineState.emit, EngineState.decrActive,
        EngineState.incrActive, mkPlan]
  · intro h1 h2
    have hcond : (decide (result.status = "submitted") ||
        decide (result.status = "dry_run")) = false := by
      simp [h1, h2]
    unfold handleOpportunity
    simp only [hce, Bool.not_true, Bool.false_eq_true, if_false, hgas,
      hsub, hexe, hcond, hsf]
    constructor <;>
      simp [logDecision, hl, EngineState.emit, EngineState.decrActive,
        EngineState.incrActive, mkPlan]

/-- C8 witness: the success-path conjunct applied to the concrete dry-run
environment: `dry_run` yields `onTradeSuccess` and a `trade` row. -/
theorem spec_C8_witness :
    (handleOpportunity dryRunEnv oppA 0 EngineState.init).1.events =
      EngineState.init.events ++ [.tradeSubmitted oppA.marketId,
        .execCalled (mkPlan oppA), .tradeSuccess oppA.marketId] ∧
    (handleOpportunity dryRunEnv oppA 0 EngineState.init).1.decisions =
      EngineState.init.decisions ++
        [mkRecord oppA "trade" "dry_run" 0 (some oppA.sizeUsd) none] :=
  (spec_C8_result_handling dryRunEnv oppA 0 EngineState.init ⟨true, none⟩
    ⟨"dry_run", none, none⟩ rfl rfl rfl rfl rfl rfl rfl rfl).1 (Or.inr rfl)

unseal List.mergeSort List.merge in
/-- C10: the status field of every decision row is a pure function of the
action — `trade` rows get status `submitted` (even when the executor
reported `dry_run`) and every other action gets `skipped`; the execution
result's status reaches the row only through the reason field, as the
concrete dry-run scan shows. -/
theorem spec_C10_status_from_action :
    (∀ (o : Opportunity) (action reason : String) (now : Int)
      (ps : Option Rat) (tx : Option String),
      (mkRecord o action reason now ps tx).status =
        if action = "trade" then "submitted" else "skipped") ∧
    (∀ (env : Env) (s : EngineState) (o : Opportunity)
      (action reason : String) (now : Int) (ps : Option Rat)
      (tx : Option String), env.hasDecisionLogger = true →
      (logDecision env s o action reason now ps tx).decisions =
        s.decisions ++ [mkRecord o action reason now ps tx]) ∧
    (scanOnce dryRunEnv 0 EngineState.init).decisions.map
      (fun r => (r.action, r.status, r.reason)) =
      [("trade", "submitted", "dry_run")] :=
  ⟨fun o action reason now ps tx => rfl,
   fun env s o action reason now ps tx hl => by simp [logDecision, hl],
   rfl⟩

/-- C10 witness: the append conjunct applied at a concrete logger-equipped
environment. -/
theorem spec_C10_witness :
    (logDecision dryRunEnv EngineState.init oppA "skip" "x" 0
        none none).decisions =
      EngineState.init.decisions ++ [mkRecord oppA "skip" "x" 0 none none] :=
  spec_C10_status_from_action.2.1 dryRunEnv EngineState.init oppA "skip" "x" 0
    none none rfl

theorem semReachable_invariant (cap n : Nat) :
    ∀ st, SemReachable cap n st → st.cap = cap ∧ st.inFlight ≤ cap := by
  intro st h
  induction h with
  | init => exact ⟨rfl, Nat.zero_le _⟩
  | step hpre hstep ih =>
    cases hstep with
    | acquire hw hcap =>
      refine ⟨ih.1, ?_⟩
      have h1 := ih.1
      show _ + 1 ≤ cap
      omega
    | finish ok hr =>
      refine ⟨ih.1, ?_⟩
      have h2 := ih.2
      show _ - 1 ≤ cap
      omega

/-- C9: in the spec-modelled limiter run with the engine's fixed capacity 6
(`engine.ts` line 36), every reachable state has at most 6 operations in
flight — operations beyond 6 wait — and finishing an in-flight operation
releases its permit identically on the success and the failure path, so
permits are never leaked. -/
theorem spec_C9_limiter_cap :
    (∀ (n : Nat) (st : SemState), SemReachable 6 n st → st.inFlight ≤ 6) ∧
    (∀ (st : SemState) (ok : Bool), 0 < st.inFlight → st.inFlight ≤ st.cap →
      SemStep st (st.finishOne ok) ∧
      (st.finishOne ok).availablePermits = st.availablePermits + 1 ∧
      st.finishOne true = st.finishOne false) := by
  constructor
  · intro n st h
    exact (semReachable_invariant 6 n st h).2
  · intro st ok h1 h2
    refine ⟨SemStep.finish ok h1, ?_, rfl⟩
    show st.cap - (st.inFlight - 1) = st.cap - st.inFlight + 1
    omega

/-- C9 witness: the cap bound at the reachable state with one acquired
permit out of 6, and the permit-release equation at that state. -/
theorem spec_C9_witness :
    (⟨6, 2, 1, 0⟩ : SemState).inFlight ≤ 6 ∧
    ((⟨6, 2, 1, 0⟩ : SemState).finishOne true).availablePermits =
      (⟨6, 2, 1, 0⟩ : SemState).availablePermits + 1 :=
  ⟨spec_C9_limiter_cap.1 3 ⟨6, 2, 1, 0⟩
    (SemReachable.step SemReachable.init
      (SemStep.acquire (by decide) (by decide))),
   (spec_C9_limiter_cap.2 ⟨6, 2, 1, 0⟩ true (by decide) (by decide)).2.1⟩

end ArbEngine
